import Mathlib

/-!
# Verification of the countries-quiz program (`src/main.py`)

Shallow embedding of the guessing-session state machine and of the
viewport-transform utility of `src/main.py`, together with theorems that
settle the specification claims about them.

Conventions of the embedding:

* Python `set` objects (`remaining_countries`, `guessed_countries`) become
  `Finset String`; `set.discard` is `Finset.erase`, `set.add` is
  `Finset.insert`.
* `random.choice(list(s))` is modelled by an explicit random index `r : Nat`
  into a fixed enumeration of the set (`Finset.sort`); `random.choice` on an
  empty list raises `IndexError`, modelled by `Option` (`pyRandomChoice`).
* Python floats become `ℚ` (the zoom / pan arithmetic of the program is plain
  field arithmetic on the axis limits).
* The Tk widget state that the game logic reads or writes is carried in
  `GameState`: the axis limits (`viewXlim`, `viewYlim`), whether the entry and
  submit button are enabled (`inputEnabled`, set to `False` by `end_game`),
  and which country is currently highlighted on the map as the target
  (`displayed`, the argument of the last `draw_map` call; `end_game` calls
  `draw_map()` with no argument).
-/

/-- Python `str.strip()`: remove leading and trailing whitespace
(`src/main.py` line 120). -/
def pyStrip (s : String) : String :=
  ⟨((s.data.dropWhile Char.isWhitespace).reverse.dropWhile Char.isWhitespace).reverse⟩

/-- Python `str.lower()`: lowercase every character (`src/main.py` line 135). -/
def pyLower (s : String) : String :=
  ⟨s.data.map Char.toLower⟩

/-- Python `random.choice(l)` with the randomness made explicit as an index
`r`: returns `none` exactly when `l` is empty (where Python raises
`IndexError`). -/
def pyRandomChoice (r : Nat) (l : List String) : Option String :=
  l.get? (r % l.length)

/-- Total wrapper of `pyRandomChoice` used where the program has already
checked that the set is non-empty; the `""` default is dead code there. -/
def pyChoiceD (r : Nat) (l : List String) : String :=
  (pyRandomChoice r l).getD ""

/-- Python `list(s)` on a set: a fixed enumeration of the `Finset`. -/
def listOfSet (s : Finset String) : List String :=
  s.sort (· ≤ ·)

/-- Classification of one submitted guess, mirroring the three
`feedback_label` branches of `submit_guess` (`src/main.py` lines 123-143). -/
inductive GuessClass
  | correct
  | incorrect
  | skipped
deriving DecidableEq, Repr

/-- Observable outcome of one submission: the classification plus whether the
round ended the game (`end_game` was called, `src/main.py` lines 132, 151). -/
structure Outcome where
  cls : GuessClass
  gameOver : Bool
deriving DecidableEq, Repr

/-- The mutable program state read and written by `submit_guess`
(`src/main.py` lines 118-152): the module-level sets and
`current_country`, plus the Tk/matplotlib state the handler touches. -/
structure GameState where
  /-- `remaining_countries` (the Pool). -/
  remaining : Finset String
  /-- `guessed_countries` (the Guessed set). -/
  guessed : Finset String
  /-- the `current_country` global variable. -/
  current : String
  /-- the country highlighted as current on the map: the argument of the
  last `draw_map` call (`end_game` calls `draw_map()` with none). -/
  displayed : Option String
  /-- `ax.get_xlim()`. -/
  viewXlim : ℚ × ℚ
  /-- `ax.get_ylim()`. -/
  viewYlim : ℚ × ℚ
  /-- whether `entry` and `submit_button` are enabled (`end_game` disables
  both, `src/main.py` lines 249-250). -/
  inputEnabled : Bool
deriving DecidableEq

/-- `end_game()` (`src/main.py` lines 243-251): `draw_map()` clears the
highlighted current country, and the entry and submit button are disabled. -/
def endGame (s : GameState) : GameState :=
  { s with displayed := none, inputEnabled := false }

/-- `submit_guess(event)` (`src/main.py` lines 118-152), parametrised by the
default axis limits `DX, DY` (`DEFAULT_XLIM`, `DEFAULT_YLIM`), the random
index `r` used by `random.choice`, and the raw entry content `raw`
(`entry.get()`). Returns the new program state and the outcome. -/
def submit_guess (DX DY : ℚ × ℚ) (r : Nat) (raw : String) (s0 : GameState) :
    GameState × Outcome :=
  let guess := pyStrip raw
  let s1 := { s0 with viewXlim := DX, viewYlim := DY }
  if guess = "" then
    let s2 := { s1 with remaining := s1.remaining.erase s1.current }
    if s2.remaining.Nonempty then
      let c := pyChoiceD r (listOfSet s2.remaining)
      ({ s2 with current := c, displayed := some c },
       { cls := GuessClass.skipped, gameOver := false })
    else
      (endGame s2, { cls := GuessClass.skipped, gameOver := true })
  else
    let cls := if pyLower guess = pyLower s1.current then GuessClass.correct
      else GuessClass.incorrect
    let s2 := if pyLower guess = pyLower s1.current then
        { s1 with guessed := insert s1.current s1.guessed }
      else s1
    let s3 := { s2 with remaining := s2.remaining.erase s2.current }
    if s3.remaining.Nonempty then
      let c := pyChoiceD r (listOfSet s3.remaining)
      ({ s3 with current := c, displayed := some c },
       { cls := cls, gameOver := false })
    else
      (endGame s3, { cls := cls, gameOver := true })

/-- One guess submission as delivered by the UI: when the entry and submit
button are disabled (terminal state) no event reaches `submit_guess`, so the
state is unchanged. -/
def uiSubmit (DX DY : ℚ × ℚ) (r : Nat) (raw : String) (s : GameState) :
    GameState :=
  if s.inputEnabled then (submit_guess DX DY r raw s).1 else s

/-- Python exception kinds relevant to session start: `random.choice` on an
empty list raises `IndexError`; the specification's `EmptyDataset` condition
does not occur anywhere in `src/main.py`. -/
inductive PyError
  | indexError
  | emptyDataset
deriving DecidableEq, Repr

/-- Observable events of module-level start-up, in program order. -/
inductive StartEvent
  | uiCreated
  | raised (e : PyError)
  | targetPicked (c : String)
deriving DecidableEq, Repr

/-- Module-level start-up of `src/main.py` in program order: the Tk root
window is created at line 32, and only later (line 239) is
`current_country = random.choice(list(remaining_countries))` executed, which
raises `IndexError` when the country set is empty. `countries` is the list
read from the dataset (line 19), `remaining_countries = set(countries)`
(line 20). -/
def startupTrace (countries : List String) (r : Nat) : List StartEvent :=
  [StartEvent.uiCreated] ++
    (match pyRandomChoice r (listOfSet countries.toFinset) with
     | none => [StartEvent.raised PyError.indexError]
     | some c => [StartEvent.targetPicked c])

/-- Axis-aligned viewport bounds: `(xlim, ylim)` of the matplotlib axes. -/
structure Bounds where
  xlo : ℚ
  xhi : ℚ
  ylo : ℚ
  yhi : ℚ
deriving DecidableEq, Repr

/-- Width of the x interval. -/
def Bounds.width (b : Bounds) : ℚ := b.xhi - b.xlo

/-- Height of the y interval. -/
def Bounds.height (b : Bounds) : ℚ := b.yhi - b.ylo

/-- `zoom(factor, center)` (`src/main.py` lines 364-413), as a pure function
of the default bounds `D` (`DEFAULT_XLIM`, `DEFAULT_YLIM`), the current axis
bounds `cur` (`ax.get_xlim()`, `ax.get_ylim()`), the factor and the optional
center. Returns the bounds that the function stores with `ax.set_xlim` /
`ax.set_ylim`. -/
def zoom (D cur : Bounds) (factor : ℚ) (center : Option (ℚ × ℚ)) : Bounds :=
  let default_x_range := D.xhi - D.xlo
  let default_y_range := D.yhi - D.ylo
  let aspect := default_y_range / default_x_range
  let x_center := match center with
    | none => (cur.xlo + cur.xhi) / 2
    | some c => c.1
  let y_center := match center with
    | none => (cur.ylo + cur.yhi) / 2
    | some c => c.2
  let x_range := cur.xhi - cur.xlo
  let new_x_range := x_range * factor
  let new_y_range := new_x_range * aspect
  let min_x_range := default_x_range / 3
  let min_y_range := default_y_range / 3
  if new_x_range < min_x_range ∨ new_y_range < min_y_range then
    Bounds.mk cur.xlo cur.xhi cur.ylo cur.yhi
  else if default_x_range ≤ new_x_range ∨ default_y_range ≤ new_y_range then
    D
  else
    let xlim0 := (x_center - new_x_range / 2, x_center + new_x_range / 2)
    let ylim0 := (y_center - new_y_range / 2, y_center + new_y_range / 2)
    let xlim1 := if xlim0.1 < D.xlo then (D.xlo, xlim0.2 + (D.xlo - xlim0.1))
      else xlim0
    let xlim2 := if D.xhi < xlim1.2 then (xlim1.1 - (xlim1.2 - D.xhi), D.xhi)
      else xlim1
    let ylim1 := if ylim0.1 < D.ylo then (D.ylo, ylim0.2 + (D.ylo - ylim0.1))
      else ylim0
    let ylim2 := if D.yhi < ylim1.2 then (ylim1.1 - (ylim1.2 - D.yhi), D.yhi)
      else ylim1
    Bounds.mk xlim2.1 xlim2.2 ylim2.1 ylim2.2

/-- The bounds computation of the drag-to-pan handler `on_mouse_motion`
(`src/main.py` lines 312-354): `saved` is `_drag_data["xlim"]/["ylim"]` (the
bounds at mouse-press time) and `delta_x`, `delta_y` are the pointer
displacement already converted to data coordinates (lines 314-319). -/
def on_mouse_motion (D saved : Bounds) (delta_x delta_y : ℚ) : Bounds :=
  let new_xlim := (saved.xlo + delta_x, saved.xhi + delta_x)
  let new_ylim := (saved.ylo + delta_y, saved.yhi + delta_y)
  let x_range := new_xlim.2 - new_xlim.1
  let y_range := new_ylim.2 - new_ylim.1
  let min_x_range := (D.xhi - D.xlo) / 3
  let min_y_range := (D.yhi - D.ylo) / 3
  if |x_range - min_x_range| < 1 / 100000000 ∧
      |y_range - min_y_range| < 1 / 100000000 then
    let center_x := (D.xlo + D.xhi) / 2
    let center_y := (D.ylo + D.yhi) / 2
    Bounds.mk (center_x - min_x_range / 2) (center_x + min_x_range / 2)
      (center_y - min_y_range / 2) (center_y + min_y_range / 2)
  else
    let nx1 := if new_xlim.1 < D.xlo then (D.xlo, D.xlo + x_range) else new_xlim
    let nx2 := if D.xhi < nx1.2 then (D.xhi - x_range, D.xhi) else nx1
    let ny1 := if new_ylim.1 < D.ylo then (D.ylo, D.ylo + y_range) else new_ylim
    let ny2 := if D.yhi < ny1.2 then (D.yhi - y_range, D.yhi) else ny1
    Bounds.mk nx2.1 nx2.2 ny2.1 ny2.2

/-- The viewport invariant of the specification: the bounds are contained in
the default viewport `D` and each linear extent is at least a third of the
default's. -/
def ViewInv (D b : Bounds) : Prop :=
  D.xlo ≤ b.xlo ∧ b.xhi ≤ D.xhi ∧ D.ylo ≤ b.ylo ∧ b.yhi ≤ D.yhi ∧
    D.width / 3 ≤ b.width ∧ D.height / 3 ≤ b.height

instance (D b : Bounds) : Decidable (ViewInv D b) := by
  unfold ViewInv
  infer_instance

/-- Sample active state used by the witnesses: the two-country scenario of
the specification. -/
def sampleState : GameState :=
  { remaining := {"Canada", "France"}, guessed := ∅, current := "Canada",
    displayed := some "Canada", viewXlim := (0, 1), viewYlim := (0, 1),
    inputEnabled := true }

/-- Sample active state whose pool holds only the current target, so that a
submission ends the game. -/
def lastState : GameState :=
  { remaining := {"Canada"}, guessed := ∅, current := "Canada",
    displayed := some "Canada", viewXlim := (0, 1), viewYlim := (0, 1),
    inputEnabled := true }

/-- C1: for a non-blank submitted text, a case-insensitive match with the
current target yields `correct`, adds the target to the guessed set and
removes it from the pool; a mismatch yields `incorrect` and removes the
target from the pool while leaving the guessed set unchanged. -/
theorem submit_guess_case_insensitive_match
    (DX DY : ℚ × ℚ) (r : Nat) (raw : String) (s : GameState)
    (hne : pyStrip raw ≠ "") :
    (pyLower (pyStrip raw) = pyLower s.current →
      (submit_guess DX DY r raw s).2.cls = GuessClass.correct ∧
      (submit_guess DX DY r raw s).1.guessed = insert s.current s.guessed ∧
      (submit_guess DX DY r raw s).1.remaining = s.remaining.erase s.current ∧
      s.current ∉ (submit_guess DX DY r raw s).1.remaining) ∧
    (pyLower (pyStrip raw) ≠ pyLower s.current →
      (submit_guess DX DY r raw s).2.cls = GuessClass.incorrect ∧
      (submit_guess DX DY r raw s).1.guessed = s.guessed ∧
      (submit_guess DX DY r raw s).1.remaining = s.remaining.erase s.current ∧
      s.current ∉ (submit_guess DX DY r raw s).1.remaining) := by
  constructor
  · intro hm
    simp only [submit_guess, if_neg hne, if_pos hm]
    split_ifs with h2 <;>
      exact ⟨rfl, rfl, rfl, Finset.not_mem_erase _ _⟩
  · intro hm
    simp only [submit_guess, if_neg hne, if_neg hm]
    split_ifs with h2 <;>
      exact ⟨rfl, rfl, rfl, Finset.not_mem_erase _ _⟩

/-- Witness for C1 at the sample state: the mixed-case padded guess
`" cAnAdA "` for target `"Canada"` is correct, and the wrong name
`"France"` is incorrect. -/
theorem submit_guess_case_insensitive_match_witness :
    ((submit_guess (0, 1) (0, 1) 0 " cAnAdA " sampleState).2.cls =
        GuessClass.correct ∧
      (submit_guess (0, 1) (0, 1) 0 " cAnAdA " sampleState).1.guessed =
        insert "Canada" (∅ : Finset String) ∧
      (submit_guess (0, 1) (0, 1) 0 " cAnAdA " sampleState).1.remaining =
        ({"Canada", "France"} : Finset String).erase "Canada" ∧
      "Canada" ∉ (submit_guess (0, 1) (0, 1) 0 " cAnAdA " sampleState).1.remaining) ∧
    ((submit_guess (0, 1) (0, 1) 0 "France" sampleState).2.cls =
        GuessClass.incorrect ∧
      (submit_guess (0, 1) (0, 1) 0 "France" sampleState).1.guessed =
        (∅ : Finset String) ∧
      (submit_guess (0, 1) (0, 1) 0 "France" sampleState).1.remaining =
        ({"Canada", "France"} : Finset String).erase "Canada" ∧
      "Canada" ∉ (submit_guess (0, 1) (0, 1) 0 "France" sampleState).1.remaining) :=
  ⟨(submit_guess_case_insensitive_match (0, 1) (0, 1) 0 " cAnAdA " sampleState
      (by decide)).1 (by decide),
   (submit_guess_case_insensitive_match (0, 1) (0, 1) 0 "France" sampleState
      (by decide)).2 (by decide)⟩

/-- C2: when the current target is in the pool and the pool is disjoint from
the guessed set, one submission (of any kind) shrinks the pool by exactly
one, the guessed set changes exactly on a `correct` outcome (gaining the
current target), and pool and guessed set stay disjoint. -/
theorem submit_guess_pool_shrinks
    (DX DY : ℚ × ℚ) (r : Nat) (raw : String) (s : GameState)
    (hcur : s.current ∈ s.remaining)
    (hdisj : Disjoint s.remaining s.guessed) :
    (submit_guess DX DY r raw s).1.remaining.card + 1 = s.remaining.card ∧
    ((submit_guess DX DY r raw s).2.cls = GuessClass.correct →
      (submit_guess DX DY r raw s).1.guessed = insert s.current s.guessed) ∧
    ((submit_guess DX DY r raw s).2.cls ≠ GuessClass.correct →
      (submit_guess DX DY r raw s).1.guessed = s.guessed) ∧
    Disjoint (submit_guess DX DY r raw s).1.remaining
      (submit_guess DX DY r raw s).1.guessed := by
  have hdisj' : Disjoint (s.remaining.erase s.current) s.guessed :=
    Finset.disjoint_of_subset_left (Finset.erase_subset _ _) hdisj
  have hdisj'' :
      Disjoint (s.remaining.erase s.current) (insert s.current s.guessed) :=
    Finset.disjoint_insert_right.mpr ⟨Finset.not_mem_erase _ _, hdisj'⟩
  have hpos : 1 ≤ s.remaining.card := Finset.card_pos.mpr ⟨s.current, hcur⟩
  simp only [submit_guess]
  split_ifs with h1 h2 h3 h4 h3 <;>
    simp_all [Finset.card_erase_add_one hcur, endGame]

/-- Witness for C2 at the sample state with an incorrect guess. -/
theorem submit_guess_pool_shrinks_witness :
    (submit_guess (0, 1) (0, 1) 0 "France" sampleState).1.remaining.card + 1 =
      sampleState.remaining.card ∧
    ((submit_guess (0, 1) (0, 1) 0 "France" sampleState).2.cls =
        GuessClass.correct →
      (submit_guess (0, 1) (0, 1) 0 "France" sampleState).1.guessed =
        insert sampleState.current sampleState.guessed) ∧
    ((submit_guess (0, 1) (0, 1) 0 "France" sampleState).2.cls ≠
        GuessClass.correct →
      (submit_guess (0, 1) (0, 1) 0 "France" sampleState).1.guessed =
        sampleState.guessed) ∧
    Disjoint (submit_guess (0, 1) (0, 1) 0 "France" sampleState).1.remaining
      (submit_guess (0, 1) (0, 1) 0 "France" sampleState).1.guessed :=
  submit_guess_pool_shrinks (0, 1) (0, 1) 0 "France" sampleState
    (by decide) (by simp [sampleState])

/-- C3: a blank submission (empty or whitespace-only, so that `strip` leaves
the empty string) is classified `skipped`, removes the current target from
the pool, and leaves the guessed set unchanged. -/
theorem submit_guess_skip_blank
    (DX DY : ℚ × ℚ) (r : Nat) (raw : String) (s : GameState)
    (h : pyStrip raw = "") :
    (submit_guess DX DY r raw s).2.cls = GuessClass.skipped ∧
    (submit_guess DX DY r raw s).1.remaining = s.remaining.erase s.current ∧
    s.current ∉ (submit_guess DX DY r raw s).1.remaining ∧
    (submit_guess DX DY r raw s).1.guessed = s.guessed := by
  simp only [submit_guess, if_pos h]
  split_ifs with h1 <;>
    exact ⟨rfl, rfl, Finset.not_mem_erase _ _, rfl⟩

/-- Witness for C3 at the sample state with a whitespace-only entry. -/
theorem submit_guess_skip_blank_witness :
    (submit_guess (0, 1) (0, 1) 0 "  " sampleState).2.cls =
      GuessClass.skipped ∧
    (submit_guess (0, 1) (0, 1) 0 "  " sampleState).1.remaining =
      sampleState.remaining.erase sampleState.current ∧
    sampleState.current ∉
      (submit_guess (0, 1) (0, 1) 0 "  " sampleState).1.remaining ∧
    (submit_guess (0, 1) (0, 1) 0 "  " sampleState).1.guessed =
      sampleState.guessed :=
  submit_guess_skip_blank (0, 1) (0, 1) 0 "  " sampleState (by decide)

/-- C4: a submission that empties the pool clears the highlighted current
target, carries the game-over flag, disables further input (terminal state),
and any later UI submission leaves the terminal state unchanged. -/
theorem submit_guess_terminal
    (DX DY : ℚ × ℚ) (r : Nat) (raw : String) (s : GameState)
    (hempty : s.remaining.erase s.current = ∅) :
    (submit_guess DX DY r raw s).2.gameOver = true ∧
    (submit_guess DX DY r raw s).1.displayed = none ∧
    (submit_guess DX DY r raw s).1.inputEnabled = false ∧
    (submit_guess DX DY r raw s).1.remaining = ∅ ∧
    (∀ (DX' DY' : ℚ × ℚ) (r' : Nat) (raw' : String),
      uiSubmit DX' DY' r' raw' (submit_guess DX DY r raw s).1 =
        (submit_guess DX DY r raw s).1) := by
  have hni : ¬ (s.remaining.erase s.current).Nonempty := by
    rw [hempty]
    exact Finset.not_nonempty_empty
  have hmain :
      (submit_guess DX DY r raw s).1.inputEnabled = false ∧
      (submit_guess DX DY r raw s).2.gameOver = true ∧
      (submit_guess DX DY r raw s).1.displayed = none ∧
      (submit_guess DX DY r raw s).1.remaining = ∅ := by
    simp only [submit_guess]
    split_ifs <;> simp_all [endGame]
  refine ⟨hmain.2.1, hmain.2.2.1, hmain.1, hmain.2.2.2, ?_⟩
  intro DX' DY' r' raw'
  unfold uiSubmit
  rw [hmain.1]
  simp

/-- Witness for C4: submitting any guess in `lastState` ends the game and
later UI submissions are no-ops. -/
theorem submit_guess_terminal_witness :
    (submit_guess (0, 1) (0, 1) 0 "France" lastState).2.gameOver = true ∧
    (submit_guess (0, 1) (0, 1) 0 "France" lastState).1.displayed = none ∧
    (submit_guess (0, 1) (0, 1) 0 "France" lastState).1.inputEnabled = false ∧
    (submit_guess (0, 1) (0, 1) 0 "France" lastState).1.remaining = ∅ ∧
    (∀ (DX' DY' : ℚ × ℚ) (r' : Nat) (raw' : String),
      uiSubmit DX' DY' r' raw' (submit_guess (0, 1) (0, 1) 0 "France" lastState).1 =
        (submit_guess (0, 1) (0, 1) 0 "France" lastState).1) :=
  submit_guess_terminal (0, 1) (0, 1) 0 "France" lastState (by decide)

/-- A string all of whose characters are whitespace strips to the empty
string. -/
theorem pyStrip_eq_empty (raw : String)
    (h : ∀ ch ∈ raw.data, ch.isWhitespace = true) : pyStrip raw = "" := by
  unfold pyStrip
  have h1 : raw.data.dropWhile Char.isWhitespace = [] :=
    List.dropWhile_eq_nil_iff.mpr h
  rw [h1]
  rfl

/-- C9: classification works on the stripped text: a non-blank guess equal to
the current target up to surrounding whitespace and letter case is
`correct`, and a whitespace-only guess behaves exactly like the empty
string. -/
theorem submit_guess_whitespace
    (DX DY : ℚ × ℚ) (r : Nat) (s : GameState) :
    (∀ raw : String, pyStrip raw ≠ "" →
      pyLower (pyStrip raw) = pyLower s.current →
      (submit_guess DX DY r raw s).2.cls = GuessClass.correct) ∧
    (∀ raw : String, (∀ ch ∈ raw.data, ch.isWhitespace = true) →
      submit_guess DX DY r raw s = submit_guess DX DY r "" s) := by
  constructor
  · intro raw hne hm
    simp only [submit_guess, if_neg hne, if_pos hm]
    split_ifs <;> rfl
  · intro raw hws
    have h : pyStrip raw = "" := pyStrip_eq_empty raw hws
    have h0 : pyStrip "" = "" := rfl
    simp only [submit_guess, h, h0]

/-- Witness for C9: the padded mixed-case guess is correct, and two spaces
behave exactly like the empty string. -/
theorem submit_guess_whitespace_witness :
    (submit_guess (0, 1) (0, 1) 0 " cAnAdA " sampleState).2.cls =
      GuessClass.correct ∧
    submit_guess (0, 1) (0, 1) 0 "  " sampleState =
      submit_guess (0, 1) (0, 1) 0 "" sampleState :=
  ⟨(submit_guess_whitespace (0, 1) (0, 1) 0 sampleState).1 " cAnAdA "
      (by decide) (by decide),
   (submit_guess_whitespace (0, 1) (0, 1) 0 sampleState).2 "  " (by decide)⟩

/-- C10: every submission stores exactly the default viewport bounds
(`reset_map_zoom` runs before the guess is classified), whatever the
outcome. -/
theorem submit_guess_resets_viewport
    (DX DY : ℚ × ℚ) (r : Nat) (raw : String) (s : GameState) :
    (submit_guess DX DY r raw s).1.viewXlim = DX ∧
    (submit_guess DX DY r raw s).1.viewYlim = DY := by
  simp only [submit_guess]
  split_ifs <;> simp [endGame]

/-- First clamp of `zoom`: a requested extent below a third of the default
(in width or in height) makes `zoom` return the current bounds unchanged. -/
theorem zoom_small (D cur : Bounds) (f : ℚ) (c : Option (ℚ × ℚ))
    (h : cur.width * f < D.width / 3 ∨
      cur.width * f * (D.height / D.width) < D.height / 3) :
    zoom D cur f c = cur := by
  simp only [Bounds.width, Bounds.height] at h
  simp only [zoom]
  rw [if_pos h]

/-- Second clamp of `zoom`: a requested extent meeting or exceeding the
default (in width or in height) makes `zoom` return exactly the default. -/
theorem zoom_snap (D cur : Bounds) (f : ℚ) (c : Option (ℚ × ℚ))
    (hx : 0 < D.width) (hy : 0 < D.height)
    (h : D.width ≤ cur.width * f ∨
      D.height ≤ cur.width * f * (D.height / D.width)) :
    zoom D cur f c = D := by
  simp only [Bounds.width, Bounds.height] at h hx hy
  have ha : 0 < (D.yhi - D.ylo) / (D.xhi - D.xlo) := div_pos hy hx
  have key : (D.xhi - D.xlo) * ((D.yhi - D.ylo) / (D.xhi - D.xlo)) =
      D.yhi - D.ylo := by
    field_simp
  have hxx : D.xhi - D.xlo ≤ (cur.xhi - cur.xlo) * f := by
    rcases h with h | h
    · exact h
    · by_contra hc
      push_neg at hc
      have hlt : (cur.xhi - cur.xlo) * f * ((D.yhi - D.ylo) / (D.xhi - D.xlo)) <
          (D.xhi - D.xlo) * ((D.yhi - D.ylo) / (D.xhi - D.xlo)) :=
        mul_lt_mul_of_pos_right hc ha
      rw [key] at hlt
      linarith
  have step : (D.xhi - D.xlo) * ((D.yhi - D.ylo) / (D.xhi - D.xlo)) ≤
      (cur.xhi - cur.xlo) * f * ((D.yhi - D.ylo) / (D.xhi - D.xlo)) :=
    mul_le_mul_of_nonneg_right hxx ha.le
  have h1 : ¬((cur.xhi - cur.xlo) * f < (D.xhi - D.xlo) / 3 ∨
      (cur.xhi - cur.xlo) * f * ((D.yhi - D.ylo) / (D.xhi - D.xlo)) <
        (D.yhi - D.ylo) / 3) := by
    push_neg
    constructor
    · linarith
    · linarith
  have h2 : D.xhi - D.xlo ≤ (cur.xhi - cur.xlo) * f ∨
      D.yhi - D.ylo ≤ (cur.xhi - cur.xlo) * f *
        ((D.yhi - D.ylo) / (D.xhi - D.xlo)) := Or.inl hxx
  simp only [zoom]
  rw [if_neg h1, if_pos h2]

set_option maxHeartbeats 2000000 in
/-- Middle branch of `zoom`: a requested extent strictly between the two
clamps produces bounds of exactly the requested width and height, contained
in the default viewport. -/
theorem zoom_mid (D cur : Bounds) (f : ℚ) (c : Option (ℚ × ℚ))
    (hx : 0 < D.width) (hy : 0 < D.height)
    (hmin : D.width / 3 ≤ cur.width * f) (hmax : cur.width * f < D.width) :
    (zoom D cur f c).width = cur.width * f ∧
    (zoom D cur f c).height = cur.width * f * (D.height / D.width) ∧
    D.xlo ≤ (zoom D cur f c).xlo ∧ (zoom D cur f c).xhi ≤ D.xhi ∧
    D.ylo ≤ (zoom D cur f c).ylo ∧ (zoom D cur f c).yhi ≤ D.yhi := by
  simp only [Bounds.width, Bounds.height] at hx hy hmin hmax ⊢
  have ha : 0 < (D.yhi - D.ylo) / (D.xhi - D.xlo) := div_pos hy hx
  have key : (D.xhi - D.xlo) * ((D.yhi - D.ylo) / (D.xhi - D.xlo)) =
      D.yhi - D.ylo := by
    field_simp
  have key3 : (D.xhi - D.xlo) / 3 * ((D.yhi - D.ylo) / (D.xhi - D.xlo)) =
      (D.yhi - D.ylo) / 3 := by
    field_simp
    ring
  have hyge : (D.yhi - D.ylo) / 3 ≤
      (cur.xhi - cur.xlo) * f * ((D.yhi - D.ylo) / (D.xhi - D.xlo)) := by
    have := mul_le_mul_of_nonneg_right hmin ha.le
    linarith
  have hylt : (cur.xhi - cur.xlo) * f * ((D.yhi - D.ylo) / (D.xhi - D.xlo)) <
      D.yhi - D.ylo := by
    have := mul_lt_mul_of_pos_right hmax ha
    linarith
  have h1 : ¬((cur.xhi - cur.xlo) * f < (D.xhi - D.xlo) / 3 ∨
      (cur.xhi - cur.xlo) * f * ((D.yhi - D.ylo) / (D.xhi - D.xlo)) <
        (D.yhi - D.ylo) / 3) := by
    push_neg
    exact ⟨hmin, hyge⟩
  have h2 : ¬(D.xhi - D.xlo ≤ (cur.xhi - cur.xlo) * f ∨
      D.yhi - D.ylo ≤ (cur.xhi - cur.xlo) * f *
        ((D.yhi - D.ylo) / (D.xhi - D.xlo))) := by
    push_neg
    exact ⟨hmax, hylt⟩
  simp only [zoom]
  rw [if_neg h1, if_neg h2]
  split_ifs <;>
    exact ⟨by ring, by ring, by linarith, by linarith, by linarith, by linarith⟩

/-- Iterating 1.25x zoom-out: once enough steps have been requested to reach
or pass the default extent, the result is exactly the default viewport. -/
theorem zoom_iter_snap (D : Bounds) (hx : 0 < D.width) (hy : 0 < D.height)
    (c : Option (ℚ × ℚ)) :
    ∀ (n : Nat) (cur : Bounds), D.width / 3 ≤ cur.width →
      D.width ≤ cur.width * (5 / 4) ^ (n + 1) →
      (fun b => zoom D b (5 / 4) c)^[n + 1] cur = D := by
  intro n
  induction n with
  | zero =>
    intro cur hw hsn
    rw [Function.iterate_one]
    refine zoom_snap D cur (5 / 4) c hx hy (Or.inl ?_)
    rw [pow_one] at hsn
    exact hsn
  | succ k ih =>
    intro cur hw hsn
    have hfix : zoom D D (5 / 4) c = D := by
      refine zoom_snap D D (5 / 4) c hx hy (Or.inl ?_)
      linarith
    by_cases hbig : D.width ≤ cur.width * (5 / 4)
    · rw [Function.iterate_succ_apply]
      show (fun b => zoom D b (5 / 4) c)^[k + 1] (zoom D cur (5 / 4) c) = D
      rw [zoom_snap D cur (5 / 4) c hx hy (Or.inl hbig)]
      exact Function.iterate_fixed hfix (k + 1)
    · push_neg at hbig
      have hmin' : D.width / 3 ≤ cur.width * (5 / 4) := by linarith
      have hmid := zoom_mid D cur (5 / 4) c hx hy hmin' hbig
      rw [Function.iterate_succ_apply]
      show (fun b => zoom D b (5 / 4) c)^[k + 1] (zoom D cur (5 / 4) c) = D
      apply ih
      · rw [hmid.1]
        exact hmin'
      · rw [hmid.1]
        have hpow : cur.width * (5 / 4) * (5 / 4) ^ (k + 1) =
            cur.width * (5 / 4) ^ (k + 1 + 1) := by ring
        rw [hpow]
        exact hsn

/-- The default viewport itself satisfies the viewport invariant. -/
theorem viewInv_default (D : Bounds) (hx : 0 < D.width) (hy : 0 < D.height) :
    ViewInv D D := by
  unfold ViewInv
  refine ⟨le_refl _, le_refl _, le_refl _, le_refl _, by linarith, by linarith⟩

/-- A `zoom` step keeps both extents at or above a third of the default's
(only the two extent bounds of the invariant are needed). -/
theorem zoom_keeps_min (D cur : Bounds) (f : ℚ) (c : Option (ℚ × ℚ))
    (hx : 0 < D.width) (hy : 0 < D.height)
    (hw : D.width / 3 ≤ cur.width) (hh : D.height / 3 ≤ cur.height) :
    D.width / 3 ≤ (zoom D cur f c).width ∧
    D.height / 3 ≤ (zoom D cur f c).height := by
  by_cases h1 : cur.width * f < D.width / 3 ∨
      cur.width * f * (D.height / D.width) < D.height / 3
  · rw [zoom_small D cur f c h1]
    exact ⟨hw, hh⟩
  · push_neg at h1
    by_cases h2 : D.width ≤ cur.width * f ∨
        D.height ≤ cur.width * f * (D.height / D.width)
    · rw [zoom_snap D cur f c hx hy h2]
      constructor <;> linarith
    · push_neg at h2
      obtain ⟨hwz, hhz, -, -, -, -⟩ := zoom_mid D cur f c hx hy h1.1 h2.1
      constructor
      · rw [hwz]
        exact h1.1
      · rw [hhz]
        exact h1.2

/-- Any sequence of `zoom` steps keeps both extents at or above a third of
the default's. -/
theorem zoom_fold_keeps_min (D : Bounds) (hx : 0 < D.width)
    (hy : 0 < D.height) :
    ∀ (l : List (ℚ × Option (ℚ × ℚ))) (cur : Bounds),
      D.width / 3 ≤ cur.width → D.height / 3 ≤ cur.height →
      D.width / 3 ≤ (l.foldl (fun b p => zoom D b p.1 p.2) cur).width ∧
      D.height / 3 ≤ (l.foldl (fun b p => zoom D b p.1 p.2) cur).height := by
  intro l
  induction l with
  | nil =>
    intro cur hw hh
    exact ⟨hw, hh⟩
  | cons p t ih =>
    intro cur hw hh
    have hstep := zoom_keeps_min D cur p.1 p.2 hx hy hw hh
    simp only [List.foldl_cons]
    exact ih (zoom D cur p.1 p.2) hstep.1 hstep.2

/-- A `zoom` step preserves the full viewport invariant. -/
theorem zoom_inv (D b : Bounds) (f : ℚ) (c : Option (ℚ × ℚ))
    (hx : 0 < D.width) (hy : 0 < D.height) (hb : ViewInv D b) :
    ViewInv D (zoom D b f c) := by
  by_cases h1 : b.width * f < D.width / 3 ∨
      b.width * f * (D.height / D.width) < D.height / 3
  · rw [zoom_small D b f c h1]
    exact hb
  · push_neg at h1
    by_cases h2 : D.width ≤ b.width * f ∨
        D.height ≤ b.width * f * (D.height / D.width)
    · rw [zoom_snap D b f c hx hy h2]
      exact viewInv_default D hx hy
    · push_neg at h2
      obtain ⟨hwz, hhz, hxl, hxh, hyl, hyh⟩ := zoom_mid D b f c hx hy h1.1 h2.1
      refine ⟨hxl, hxh, hyl, hyh, ?_, ?_⟩
      · rw [hwz]
        exact h1.1
      · rw [hhz]
        exact h1.2

/-- A pan (drag-motion) step preserves the full viewport invariant. -/
theorem pan_inv (D b : Bounds) (delta_x delta_y : ℚ)
    (hx : 0 < D.width) (hy : 0 < D.height) (hb : ViewInv D b) :
    ViewInv D (on_mouse_motion D b delta_x delta_y) := by
  obtain ⟨h1, h2, h3, h4, h5, h6⟩ := hb
  simp only [Bounds.width, Bounds.height] at h5 h6 hx hy
  simp only [on_mouse_motion, ViewInv, Bounds.width, Bounds.height]
  split_ifs <;> dsimp only at * <;>
    refine ⟨by linarith, by linarith, by linarith, by linarith, by linarith,
      by linarith⟩

/-- C6: a zoom request whose resulting width or height would fall below a
third of the default viewport's is rejected (the current bounds are returned
unchanged); consequently one zoom step, and any sequence of zoom steps,
keeps both extents at or above a third of the default's. -/
theorem zoom_min_clamp (D cur : Bounds) (f : ℚ) (c : Option (ℚ × ℚ))
    (hx : 0 < D.width) (hy : 0 < D.height) :
    ((cur.width * f < D.width / 3 ∨
        cur.width * f * (D.height / D.width) < D.height / 3) →
      zoom D cur f c = cur) ∧
    (D.width / 3 ≤ cur.width → D.height / 3 ≤ cur.height →
      D.width / 3 ≤ (zoom D cur f c).width ∧
      D.height / 3 ≤ (zoom D cur f c).height) ∧
    (∀ l : List (ℚ × Option (ℚ × ℚ)),
      D.width / 3 ≤ cur.width → D.height / 3 ≤ cur.height →
      D.width / 3 ≤ (l.foldl (fun b p => zoom D b p.1 p.2) cur).width ∧
      D.height / 3 ≤ (l.foldl (fun b p => zoom D b p.1 p.2) cur).height) :=
  ⟨fun h => zoom_small D cur f c h,
   fun hw hh => zoom_keeps_min D cur f c hx hy hw hh,
   fun l hw hh => zoom_fold_keeps_min D hx hy l cur hw hh⟩

/-- Witness for C6 at the world-extent default: a 10x zoom-in request from
the default is rejected, and a further zoom on minimum-size bounds keeps the
extents at or above a third of the default's. -/
theorem zoom_min_clamp_witness :
    zoom (Bounds.mk (-180) 180 (-90) 90) (Bounds.mk (-180) 180 (-90) 90)
        (1 / 10) none = Bounds.mk (-180) 180 (-90) 90 ∧
    ((Bounds.mk (-180) 180 (-90) 90 : Bounds).width / 3 ≤
        (zoom (Bounds.mk (-180) 180 (-90) 90) (Bounds.mk (-60) 60 (-30) 30)
          (1 / 2) none).width ∧
      (Bounds.mk (-180) 180 (-90) 90 : Bounds).height / 3 ≤
        (zoom (Bounds.mk (-180) 180 (-90) 90) (Bounds.mk (-60) 60 (-30) 30)
          (1 / 2) none).height) :=
  ⟨(zoom_min_clamp (Bounds.mk (-180) 180 (-90) 90)
      (Bounds.mk (-180) 180 (-90) 90) (1 / 10) none
      (by norm_num [Bounds.width]) (by norm_num [Bounds.height])).1
      (Or.inl (by norm_num [Bounds.width])),
   (zoom_min_clamp (Bounds.mk (-180) 180 (-90) 90)
      (Bounds.mk (-60) 60 (-30) 30) (1 / 2) none
      (by norm_num [Bounds.width]) (by norm_num [Bounds.height])).2.1
      (by norm_num [Bounds.width]) (by norm_num [Bounds.height])⟩

/-- C7: a zoom request whose resulting width or height would meet or exceed
the default viewport's snaps to exactly the default (never overshooting),
and from any bounds at or above a third of the default's width, five zoom
steps with factor 1.25 return exactly the default viewport. -/
theorem zoom_snap_default (D : Bounds) (hx : 0 < D.width)
    (hy : 0 < D.height) :
    (∀ (cur : Bounds) (f : ℚ) (c : Option (ℚ × ℚ)),
      (D.width ≤ cur.width * f ∨
        D.height ≤ cur.width * f * (D.height / D.width)) →
      zoom D cur f c = D) ∧
    (∀ (cur : Bounds) (c : Option (ℚ × ℚ)), D.width / 3 ≤ cur.width →
      (fun b => zoom D b (5 / 4) c)^[5] cur = D) := by
  refine ⟨fun cur f c h => zoom_snap D cur f c hx hy h, ?_⟩
  intro cur c hw
  apply zoom_iter_snap D hx hy c 4 cur hw
  have hpow : ((5 : ℚ) / 4) ^ (4 + 1) = 3125 / 1024 := by norm_num
  rw [hpow]
  linarith

/-- Witness for C7: a 100x zoom-out request from zoomed-in bounds snaps to
the default, and five 1.25x steps from minimum-size bounds reach exactly the
default. -/
theorem zoom_snap_default_witness :
    zoom (Bounds.mk (-180) 180 (-90) 90) (Bounds.mk (-60) 60 (-30) 30) 100
        none = Bounds.mk (-180) 180 (-90) 90 ∧
    (fun b => zoom (Bounds.mk (-180) 180 (-90) 90) b (5 / 4) none)^[5]
        (Bounds.mk (-60) 60 (-30) 30) = Bounds.mk (-180) 180 (-90) 90 :=
  ⟨(zoom_snap_default (Bounds.mk (-180) 180 (-90) 90)
      (by norm_num [Bounds.width]) (by norm_num [Bounds.height])).1
      (Bounds.mk (-60) 60 (-30) 30) 100 none
      (Or.inl (by norm_num [Bounds.width])),
   (zoom_snap_default (Bounds.mk (-180) 180 (-90) 90)
      (by norm_num [Bounds.width]) (by norm_num [Bounds.height])).2
      (Bounds.mk (-60) 60 (-30) 30) none (by norm_num [Bounds.width])⟩

/-- C8: the viewport invariant (containment in the default viewport and
extents at or above a third of the default's, hence area at or above a ninth
of the default's) holds at the default viewport and is preserved by every
zoom step and every pan step. -/
theorem viewport_invariant (D : Bounds) (hx : 0 < D.width)
    (hy : 0 < D.height) :
    ViewInv D D ∧
    (∀ (b : Bounds) (f : ℚ) (c : Option (ℚ × ℚ)),
      ViewInv D b → ViewInv D (zoom D b f c)) ∧
    (∀ (b : Bounds) (dx dy : ℚ),
      ViewInv D b → ViewInv D (on_mouse_motion D b dx dy)) ∧
    (∀ b : Bounds, ViewInv D b →
      D.width * D.height / 9 ≤ b.width * b.height) := by
  refine ⟨viewInv_default D hx hy,
    fun b f c hb => zoom_inv D b f c hx hy hb,
    fun b dx dy hb => pan_inv D b dx dy hx hy hb, ?_⟩
  intro b hb
  obtain ⟨-, -, -, -, h5, h6⟩ := hb
  have hp : D.width / 3 * (D.height / 3) ≤ b.width * b.height :=
    mul_le_mul h5 h6 (by linarith) (by linarith)
  linarith

/-- Witness for C8 at the world-extent default viewport. -/
theorem viewport_invariant_witness :
    ViewInv (Bounds.mk (-180) 180 (-90) 90) (Bounds.mk (-180) 180 (-90) 90) ∧
    (∀ (b : Bounds) (f : ℚ) (c : Option (ℚ × ℚ)),
      ViewInv (Bounds.mk (-180) 180 (-90) 90) b →
      ViewInv (Bounds.mk (-180) 180 (-90) 90)
        (zoom (Bounds.mk (-180) 180 (-90) 90) b f c)) ∧
    (∀ (b : Bounds) (dx dy : ℚ),
      ViewInv (Bounds.mk (-180) 180 (-90) 90) b →
      ViewInv (Bounds.mk (-180) 180 (-90) 90)
        (on_mouse_motion (Bounds.mk (-180) 180 (-90) 90) b dx dy)) ∧
    (∀ b : Bounds, ViewInv (Bounds.mk (-180) 180 (-90) 90) b →
      (Bounds.mk (-180) 180 (-90) 90 : Bounds).width *
        (Bounds.mk (-180) 180 (-90) 90 : Bounds).height / 9 ≤
        b.width * b.height) :=
  viewport_invariant (Bounds.mk (-180) 180 (-90) 90)
    (by norm_num [Bounds.width]) (by norm_num [Bounds.height])

/-- Counterexample for C5: with an empty country set the program creates the
Tk root window first and then fails with an uncaught `IndexError` from
`random.choice`; no `EmptyDataset` condition is ever signalled, and nothing
is surfaced before the UI is created. -/
theorem startup_no_emptyDataset :
    startupTrace [] 0 =
      [StartEvent.uiCreated, StartEvent.raised PyError.indexError] ∧
    StartEvent.raised PyError.emptyDataset ∉ startupTrace [] 0 ∧
    (startupTrace [] 0).head? = some StartEvent.uiCreated := by
  refine ⟨?_, ?_, ?_⟩ <;> simp [startupTrace, listOfSet, pyRandomChoice]

/-- C5 (amended): session start fails exactly when the country set is empty,
but the failure is an uncaught `IndexError` raised only after the UI root
window has been created, not an `EmptyDataset` condition surfaced before any
UI; for a non-empty country set, start picks a current target from the
pool. -/
theorem startup_amended (countries : List String) (r : Nat) :
    (startupTrace countries r).head? = some StartEvent.uiCreated ∧
    (countries = [] →
      startupTrace countries r =
        [StartEvent.uiCreated, StartEvent.raised PyError.indexError]) ∧
    (countries ≠ [] → ∃ c, c ∈ countries ∧
      startupTrace countries r =
        [StartEvent.uiCreated, StartEvent.targetPicked c]) := by
  refine ⟨rfl, ?_, ?_⟩
  · intro h
    subst h
    simp [startupTrace, listOfSet, pyRandomChoice]
  · intro h
    have hne : countries.toFinset.Nonempty := by
      cases countries with
      | nil => exact absurd rfl h
      | cons a t => exact ⟨a, by simp⟩
    have hlen : (listOfSet countries.toFinset).length =
        countries.toFinset.card := by
      simp [listOfSet]
    have hpos : 0 < (listOfSet countries.toFinset).length := by
      rw [hlen]
      exact Finset.card_pos.mpr hne
    have hlt : r % (listOfSet countries.toFinset).length <
        (listOfSet countries.toFinset).length := Nat.mod_lt _ hpos
    obtain ⟨c, hc⟩ : ∃ c, (listOfSet countries.toFinset).get?
        (r % (listOfSet countries.toFinset).length) = some c :=
      ⟨_, List.get?_eq_get hlt⟩
    refine ⟨c, ?_, ?_⟩
    · have hmem : c ∈ listOfSet countries.toFinset := List.get?_mem hc
      have hfin : c ∈ countries.toFinset := by
        simpa [listOfSet] using hmem
      simpa using hfin
    · simp only [startupTrace, pyRandomChoice]
      rw [hc]
      rfl

/-- Witness for C5 (amended) on the one-country list. -/
theorem startup_amended_witness :
    ∃ c, c ∈ ["Canada"] ∧
      startupTrace ["Canada"] 0 =
        [StartEvent.uiCreated, StartEvent.targetPicked c] :=
  (startup_amended ["Canada"] 0).2.2 (by decide)
